import Mathlib

/-!
# Verification of `street_art.py`

A shallow embedding of the street ASCII-art renderer. Python strings are
modelled as `List Char`; fallible operations (those that can raise at
runtime, such as division by zero or out-of-range indexing during parsing)
return `Option`. Widths and heights are `Nat` (the program's own
preconditions keep them positive); Python `int(...)` is modelled for
nonnegative decimal literals.
-/

namespace StreetArt

/-- A building: `Building.__init__` stores width, height and the brick
string (`parameters[2]` of the token, so a `List Char` in general). -/
structure Building where
  width : Nat
  height : Nat
  brick : List Char
deriving DecidableEq, Repr

/-- `Building.single_line`: prepend `filling` to the recursive call until
`width` reaches 0 (Python concatenates the whole `filling` string each
step). -/
def single_line : Nat → List Char → List Char
  | 0, _ => []
  | w + 1, filling => filling ++ single_line w filling

/-- `Building.at_height`: blank above the building, brick line within. -/
def Building.at_height (b : Building) (height : Nat) : List Char :=
  if b.height < height then single_line b.width [' ']
  else single_line b.width b.brick

/-- A park: `Park.__init__` stores width and the foliage string; the height
field is always 5. -/
structure Park where
  width : Nat
  fol : List Char
deriving DecidableEq, Repr

/-- The `_height` field set by `Park.__init__` is always 5. -/
def Park.height (_ : Park) : Nat := 5

/-- `Park.fill_line`: same recursion as `single_line`. -/
def fill_line : Nat → List Char → List Char
  | 0, _ => []
  | w + 1, filling => filling ++ fill_line w filling

/-- `Park.tree_line`: pad on both sides with `(width - middle) // 2` spaces
around a band of `middle` copies of `filling`. -/
def Park.tree_line (_ : Park) (width middle : Nat) (filling : List Char) :
    List Char :=
  let space_width := (width - middle) / 2
  let space := fill_line space_width [' ']
  let tree_part := fill_line middle filling
  space ++ tree_part ++ space

/-- `Park.at_height`: blank above 5; trunk for height ≤ 2; foliage bands of
widths 5, 3, 1 at heights 3, 4, 5. -/
def Park.at_height (p : Park) (height : Nat) : List Char :=
  if 5 < height then fill_line p.width [' ']
  else if 2 ≥ height then p.tree_line p.width 1 ['|']
  else if height = 3 then p.tree_line p.width 5 p.fol
  else if height = 4 then p.tree_line p.width 3 p.fol
  else p.tree_line p.width 1 p.fol

/-- An empty lot: `EmptyLot.__init__` stores width and the trash string;
the height field is always 1. -/
structure EmptyLot where
  width : Nat
  trash : List Char
deriving DecidableEq, Repr

/-- The `_height` field set by `EmptyLot.__init__` is always 1. -/
def EmptyLot.height (_ : EmptyLot) : Nat := 1

/-- `EmptyLot.empty_line`: a line of `width` spaces, built recursively. -/
def empty_line : Nat → List Char
  | 0 => []
  | w + 1 => ' ' :: empty_line w

/-- `EmptyLot.change_spaces`: replace each underscore by a space. -/
def change_spaces : List Char → List Char
  | [] => []
  | c :: rest =>
    if c = '_' then ' ' :: change_spaces rest
    else c :: change_spaces rest

/-- Python `s * times`: `times` concatenated copies of `s`. -/
def repeat_list : List Char → Nat → List Char
  | _, 0 => []
  | s, n + 1 => s ++ repeat_list s n

/-- `EmptyLot.trash_to_width`: trim when the pattern is at least as long as
the width; otherwise tile `width // len` full copies plus the first
`width % len` characters. When the pattern is empty and shorter than the
width, Python raises `ZeroDivisionError` at `width // len(trash)`; that
failure is `none`. -/
def EmptyLot.trash_to_width (e : EmptyLot) (trash : List Char) :
    Option (List Char) :=
  if trash.length ≥ e.width then some (trash.take e.width)
  else if trash.length = 0 then none
  else
    let times := e.width / trash.length
    let rem := e.width % trash.length
    some (repeat_list trash times ++ trash.take rem)

/-- `EmptyLot.at_height`: blank above 1; at the bottom row, the normalized
trash pattern sized to the width (which can fail, see
`EmptyLot.trash_to_width`). -/
def EmptyLot.at_height (e : EmptyLot) (height : Nat) : Option (List Char) :=
  if height > 1 then some (empty_line e.width)
  else e.trash_to_width (change_spaces e.trash)

/-- The closed set of street element variants dispatched on by the
program's type-character branching. -/
inductive Element where
  | building : Building → Element
  | park : Park → Element
  | emptyLot : EmptyLot → Element
deriving DecidableEq, Repr

/-- The `width()` accessor of whichever variant. -/
def Element.width : Element → Nat
  | .building b => b.width
  | .park p => p.width
  | .emptyLot e => e.width

/-- The `height()` accessor of whichever variant. -/
def Element.height : Element → Nat
  | .building b => b.height
  | .park p => p.height
  | .emptyLot e => e.height

/-- The `at_height` method of whichever variant (`Option` because the
empty-lot row can fail). -/
def Element.at_height : Element → Nat → Option (List Char)
  | .building b, h => some (b.at_height h)
  | .park p, h => some (p.at_height h)
  | .emptyLot e, h => e.at_height h

/-- Python `s.split(',')` on a `List Char`: comma-separated pieces, with
`[[]]` for the empty string. -/
def split_commas : List Char → List (List Char)
  | [] => [[]]
  | c :: rest =>
    if c = ',' then [] :: split_commas rest
    else
      match split_commas rest with
      | [] => [[c]]
      | piece :: pieces => (c :: piece) :: pieces

/-- Python `int(s)` for a nonnegative decimal literal: all-digit, nonempty;
anything else raises `ValueError` (`none`). -/
def parse_int (s : List Char) : Option Nat :=
  if s ≠ [] ∧ s.all Char.isDigit then
    some (s.foldl (fun acc c => acc * 10 + (c.toNat - 48)) 0)
  else none

/-- Outcome of one token inside `create_street`: no recognized leading
character (`skip`), a parsed element (`elem`), or an uncaught runtime
error — empty token, missing parameter, or bad integer (`crash`). -/
inductive TokenResult where
  | skip : TokenResult
  | elem : Element → TokenResult
  | crash : TokenResult
deriving DecidableEq, Repr

/-- `Building(int(parameters[0]), int(parameters[1]), parameters[2])`:
`none` when a parameter is missing (`IndexError`) or not an integer
(`ValueError`). -/
def parse_building (parameters : List (List Char)) : Option Element :=
  match parameters.get? 0, parameters.get? 1, parameters.get? 2 with
  | some p0, some p1, some p2 =>
    match parse_int p0, parse_int p1 with
    | some w, some h => some (.building ⟨w, h, p2⟩)
    | _, _ => none
  | _, _, _ => none

/-- `Park(int(parameters[0]), parameters[1])`, failing like
`parse_building`. -/
def parse_park (parameters : List (List Char)) : Option Element :=
  match parameters.get? 0, parameters.get? 1 with
  | some p0, some p1 =>
    match parse_int p0 with
    | some w => some (.park ⟨w, p1⟩)
    | none => none
  | _, _ => none

/-- `EmptyLot(int(parameters[0]), parameters[1])`, failing like
`parse_building`. -/
def parse_lot (parameters : List (List Char)) : Option Element :=
  match parameters.get? 0, parameters.get? 1 with
  | some p0, some p1 =>
    match parse_int p0 with
    | some w => some (.emptyLot ⟨w, p1⟩)
    | none => none
  | _, _ => none

/-- A recognized token either yields its element or aborts the run. -/
def opt_result : Option Element → TokenResult
  | some e => .elem e
  | none => .crash

/-- The per-token body of `create_street`: branch on the first character,
split everything from index 2 on commas, and build the element from the
positional parameters. -/
def parse_token (tok : List Char) : TokenResult :=
  match tok with
  | [] => .crash
  | c :: _ =>
    if c = 'b' then opt_result (parse_building (split_commas (tok.drop 2)))
    else if c = 'p' then opt_result (parse_park (split_commas (tok.drop 2)))
    else if c = 'e' then opt_result (parse_lot (split_commas (tok.drop 2)))
    else .skip

/-- `create_street`: recurse over the tokens, appending one element per
recognized token to the accumulator; an uncaught runtime error aborts the
whole run (`none`). -/
def create_street : List (List Char) → List Element → Option (List Element)
  | [], parts_list => some parts_list
  | tok :: rest, parts_list =>
    match parse_token tok with
    | .crash => none
    | .skip => create_street rest parts_list
    | .elem e => create_street rest (parts_list ++ [e])

/-- `max_height`: fold the running maximum over the street. -/
def max_height : List Element → Nat → Nat
  | [], max_h => max_h
  | e :: rest, max_h =>
    max_height rest (if e.height > max_h then e.height else max_h)

/-- `street_line`: concatenate each element's row at the given height; a
failed row aborts the whole line. -/
def street_line : List Element → Nat → Option (List Char)
  | [], _ => some []
  | e :: rest, height =>
    match e.at_height height, street_line rest height with
    | some line, some t => some (line ++ t)
    | _, _ => none

/-- `print_street`: the content lines, from `height` down to 1, each
wrapped between `|` bars. -/
def print_street : List Element → Nat → Option (List (List Char))
  | _, 0 => some []
  | parts, h + 1 =>
    match street_line parts (h + 1), print_street parts h with
    | some line, some rest => some (('|' :: line ++ ['|']) :: rest)
    | _, _ => none

/-- `find_width`: total width of the street. -/
def find_width : List Element → Nat
  | [] => 0
  | e :: rest => e.width + find_width rest

/-- `border_line`: `width` copies of the fill character. -/
def border_line : Nat → Char → List Char
  | 0, _ => []
  | w + 1, fill => fill :: border_line w fill

/-- `main`, as the list of printed lines for the given whitespace-split
tokens: top border, blank padding row, content rows, bottom border. -/
def main_output (parts : List (List Char)) : Option (List (List Char)) :=
  match create_street parts [] with
  | none => none
  | some street_parts =>
    let max_h := max_height street_parts 0
    let width := find_width street_parts
    match print_street street_parts max_h with
    | none => none
    | some content =>
      some (('+' :: border_line width '-' ++ ['+']) ::
            ('|' :: border_line width ' ' ++ ['|']) ::
            (content ++ [('+' :: border_line width '-' ++ ['+'])]))

/-! ## Helper lemmas -/

lemma single_line_replicate (w : Nat) (c : Char) :
    single_line w [c] = List.replicate w c := by
  induction w with
  | zero => rfl
  | succ n ih => simp [single_line, ih, List.replicate_succ]

lemma fill_line_replicate (w : Nat) (c : Char) :
    fill_line w [c] = List.replicate w c := by
  induction w with
  | zero => rfl
  | succ n ih => simp [fill_line, ih, List.replicate_succ]

lemma empty_line_replicate (w : Nat) :
    empty_line w = List.replicate w ' ' := by
  induction w with
  | zero => rfl
  | succ n ih => simp [empty_line, ih, List.replicate_succ]

lemma border_line_replicate (w : Nat) (c : Char) :
    border_line w c = List.replicate w c := by
  induction w with
  | zero => rfl
  | succ n ih => simp [border_line, ih, List.replicate_succ]

lemma repeat_list_length (s : List Char) (n : Nat) :
    (repeat_list s n).length = n * s.length := by
  induction n with
  | zero => simp [repeat_list]
  | succ m ih => simp [repeat_list, ih, Nat.succ_mul, Nat.add_comm]

lemma change_spaces_length (s : List Char) :
    (change_spaces s).length = s.length := by
  induction s with
  | nil => rfl
  | cons c rest ih =>
    simp only [change_spaces]
    split <;> simp [ih]

lemma change_spaces_no_underscore (s : List Char) :
    '_' ∉ change_spaces s := by
  induction s with
  | nil => simp [change_spaces]
  | cons c rest ih =>
    simp only [change_spaces]
    split
    · simp only [List.mem_cons]
      rintro (h | h)
      · exact absurd h (by decide)
      · exact ih h
    · simp only [List.mem_cons]
      rintro (h | h)
      · exact absurd (h ▸ ‹¬ c = '_'›) (fun hn => hn rfl)
      · exact ih h

lemma trash_to_width_spec (e : EmptyLot) (t : List Char) (ht : t ≠ []) :
    ∃ row, e.trash_to_width t = some row ∧ row.length = e.width ∧
      (t.length ≥ e.width → row = t.take e.width) ∧
      (t.length < e.width →
        row = repeat_list t (e.width / t.length) ++
          t.take (e.width % t.length)) := by
  have hL : 0 < t.length := List.length_pos.mpr ht
  by_cases hge : t.length ≥ e.width
  · refine ⟨t.take e.width, ?_, ?_, fun _ => rfl, fun hlt => absurd hlt (by omega)⟩
    · simp [EmptyLot.trash_to_width, hge]
    · simp [List.length_take, Nat.min_eq_left hge]
  · have hlt : t.length < e.width := by omega
    refine ⟨repeat_list t (e.width / t.length) ++ t.take (e.width % t.length),
      ?_, ?_, fun hge2 => absurd hge2 hge, fun _ => rfl⟩
    · simp only [EmptyLot.trash_to_width]
      rw [if_neg (by omega), if_neg (by omega)]
    · have hmod : e.width % t.length < t.length := Nat.mod_lt _ hL
      have hdm : t.length * (e.width / t.length) + e.width % t.length =
          e.width := Nat.div_add_mod e.width t.length
      simp only [List.length_append, repeat_list_length, List.length_take]
      rw [Nat.min_eq_left (Nat.le_of_lt hmod), Nat.mul_comm]
      exact hdm

lemma find_width_sum (l : List Element) :
    find_width l = (l.map Element.width).sum := by
  induction l with
  | nil => rfl
  | cons e rest ih => simp [find_width, ih]

/-- Structure of the content block: `print_street parts h` yields `h` lines,
the line at position `i` (from the top) being the bar-wrapped street line at
height `h - i`. -/
lemma print_street_spec (parts : List Element) (h : Nat)
    (content : List (List Char)) (hp : print_street parts h = some content) :
    content.length = h ∧
    ∀ i, i < h → ∃ inner, street_line parts (h - i) = some inner ∧
      content.get? i = some ('|' :: inner ++ ['|']) := by
  induction h generalizing content with
  | zero =>
    simp only [print_street, Option.some.injEq] at hp
    subst hp
    exact ⟨rfl, fun i hi => absurd hi (Nat.not_lt_zero i)⟩
  | succ n ih =>
    simp only [print_street] at hp
    cases hline : street_line parts (n + 1) with
    | none => rw [hline] at hp; simp at hp
    | some line =>
    rw [hline] at hp
    cases hrest : print_street parts n with
    | none => rw [hrest] at hp; simp at hp
    | some rest =>
    rw [hrest] at hp
    simp only [Option.some.injEq] at hp
    obtain ⟨hlen, hrows⟩ := ih rest hrest
    subst hp
    refine ⟨by simp [hlen], fun i hi => ?_⟩
    cases i with
    | zero => exact ⟨line, by simpa using hline, rfl⟩
    | succ j =>
      have hj : j < n := Nat.lt_of_succ_lt_succ hi
      obtain ⟨inner, hin, hget⟩ := hrows j hj
      exact ⟨inner, by simpa [Nat.succ_sub_succ] using hin, by simpa using hget⟩

/-- Valid construction parameters, per the data model: positive widths, a
single-character brick and foliage, an odd park width of at least 5, and a
non-empty trash pattern. -/
def Element.valid : Element → Prop
  | .building b => 1 ≤ b.width ∧ b.brick.length = 1
  | .park p => 5 ≤ p.width ∧ p.width % 2 = 1 ∧ p.fol.length = 1
  | .emptyLot e => 1 ≤ e.width ∧ e.trash ≠ []

lemma building_at_height_eq (b : Building) (c : Char) (hb : b.brick = [c])
    (r : Nat) :
    b.at_height r = if b.height < r then List.replicate b.width ' '
      else List.replicate b.width c := by
  unfold Building.at_height
  split <;> simp [single_line_replicate, hb]

lemma park_at_height_above (p : Park) (r : Nat) (h : 5 < r) :
    p.at_height r = List.replicate p.width ' ' := by
  rw [Park.at_height, if_pos h, fill_line_replicate]

lemma park_at_height_bands (p : Park) (c : Char) (hf : p.fol = [c]) :
    p.at_height 5 = List.replicate ((p.width - 1) / 2) ' ' ++
      List.replicate 1 c ++ List.replicate ((p.width - 1) / 2) ' ' ∧
    p.at_height 4 = List.replicate ((p.width - 3) / 2) ' ' ++
      List.replicate 3 c ++ List.replicate ((p.width - 3) / 2) ' ' ∧
    p.at_height 3 = List.replicate ((p.width - 5) / 2) ' ' ++
      List.replicate 5 c ++ List.replicate ((p.width - 5) / 2) ' ' ∧
    p.at_height 2 = List.replicate ((p.width - 1) / 2) ' ' ++
      List.replicate 1 '|' ++ List.replicate ((p.width - 1) / 2) ' ' ∧
    p.at_height 1 = List.replicate ((p.width - 1) / 2) ' ' ++
      List.replicate 1 '|' ++ List.replicate ((p.width - 1) / 2) ' ' := by
  refine ⟨?_, ?_, ?_, ?_, ?_⟩ <;>
    simp [Park.at_height, Park.tree_line, fill_line_replicate, hf]

lemma emptylot_at_height_above (e : EmptyLot) (r : Nat) (h : 1 < r) :
    e.at_height r = some (List.replicate e.width ' ') := by
  rw [EmptyLot.at_height, if_pos h, empty_line_replicate]

lemma emptylot_at_height_one (e : EmptyLot) :
    e.at_height 1 = e.trash_to_width (change_spaces e.trash) := by
  rw [EmptyLot.at_height, if_neg (by omega)]

lemma change_spaces_ne_nil (s : List Char) (hs : s ≠ []) :
    change_spaces s ≠ [] := by
  intro hcon
  apply hs
  have hlen := change_spaces_length s
  rw [hcon] at hlen
  exact List.length_eq_zero.mp hlen.symm

/-! ## Claim theorems -/

/-- The example input tokens of the end-to-end spec example:
`b_4,3,# p_5,* e_3,x_y`. -/
def exampleTokens : List (List Char) :=
  [('b' :: '_' :: "4,3,#".toList), ('p' :: '_' :: "5,*".toList),
   ('e' :: '_' :: "3,x_y".toList)]

/-- C1, counterexample: on the example input, the first (top) content row
actually printed (the third output line) is `|      *     |` — the building
is blank at the top because `at_height` counts rows from the bottom and
`print_street` emits heights `maxHeight` down to 1 — not the claimed
`|####  *     |`. -/
theorem C1_counterexample :
    (main_output exampleTokens).bind (fun out => out.get? 2) =
      some ('|' :: "      *     ".toList ++ ['|']) ∧
    ('|' :: "      *     ".toList ++ ['|']) ≠
      ('|' :: "####  *     ".toList ++ ['|']) := by
  exact ⟨by decide, by decide⟩

/-- C1, amended: the example input parses to exactly
Building(4,3,'#'), Park(5,'*'), EmptyLot(3,"x_y"); maxHeight is 5 and
totalWidth is 12; but rows are rendered bottom-anchored, so the first (top)
content row is `      *     ` and the fifth (bottom) content row is
`####  |  x y`. -/
theorem C1_amended_example :
    create_street exampleTokens [] =
      some [.building ⟨4, 3, ['#']⟩, .park ⟨5, ['*']⟩,
            .emptyLot ⟨3, "x_y".toList⟩] ∧
    max_height [.building ⟨4, 3, ['#']⟩, .park ⟨5, ['*']⟩,
      .emptyLot ⟨3, "x_y".toList⟩] 0 = 5 ∧
    find_width [.building ⟨4, 3, ['#']⟩, .park ⟨5, ['*']⟩,
      .emptyLot ⟨3, "x_y".toList⟩] = 12 ∧
    main_output exampleTokens = some
      ["+------------+".toList,
       "|            |".toList,
       ('|' :: "      *     ".toList ++ ['|']),
       ('|' :: "     ***    ".toList ++ ['|']),
       ('|' :: "####*****   ".toList ++ ['|']),
       ('|' :: "####  |     ".toList ++ ['|']),
       ('|' :: "####  |  x y".toList ++ ['|']),
       "+------------+".toList] := by
  refine ⟨by decide, by decide, by decide, by decide⟩

/-- C2, counterexample: on the empty input the program does not print just
the two border lines; the unconditional blank padding row `||` is printed
between them. -/
theorem C2_counterexample :
    main_output [] ≠ some ["++".toList, "++".toList] := by
  decide

/-- C2, amended: on the empty input (zero elements, totalWidth 0,
maxHeight 0) the entire output is the top border `++`, the blank padding
row `||`, and the bottom border `++`, with no content rows. -/
theorem C2_amended_empty :
    main_output [] = some ["++".toList, "||".toList, "++".toList] := by
  decide

/-- C3: for every street whose parse and rendering succeed, the output is,
in order: the top border (`+`, totalWidth dashes, `+`), exactly one blank
padding row (`|`, totalWidth spaces, `|`), exactly maxHeight bar-wrapped
content rows emitted top to bottom (position `i` from the top carries the
composed street line at height `maxHeight - i`), and a bottom border
identical to the top border. -/
theorem C3_printer_structure (parts : List (List Char))
    (street : List Element) (out : List (List Char))
    (hs : create_street parts [] = some street)
    (ho : main_output parts = some out) :
    ∃ content, print_street street (max_height street 0) = some content ∧
      out = ('+' :: List.replicate ((street.map Element.width).sum) '-' ++
              ['+']) ::
            ('|' :: List.replicate ((street.map Element.width).sum) ' ' ++
              ['|']) ::
            (content ++
              [('+' :: List.replicate ((street.map Element.width).sum) '-' ++
                ['+'])]) ∧
      content.length = max_height street 0 ∧
      ∀ i, i < max_height street 0 →
        ∃ inner, street_line street (max_height street 0 - i) = some inner ∧
          content.get? i = some ('|' :: inner ++ ['|']) := by
  unfold main_output at ho
  rw [hs] at ho
  dsimp only at ho
  cases hc : print_street street (max_height street 0) with
  | none => rw [hc] at ho; simp at ho
  | some content =>
    rw [hc] at ho
    simp only [Option.some.injEq] at ho
    obtain ⟨hlen, hrows⟩ := print_street_spec street (max_height street 0)
      content hc
    refine ⟨content, rfl, ?_, hlen, hrows⟩
    rw [← ho]
    simp [border_line_replicate, find_width_sum]

/-- C3 witness: the structure theorem applied to the one-building street
`b_2,1,#`. -/
theorem C3_printer_structure_witness :
    create_street [('b' :: '_' :: "2,1,#".toList)] [] =
      some [.building ⟨2, 1, ['#']⟩] ∧
    main_output [('b' :: '_' :: "2,1,#".toList)] =
      some ["+--+".toList, "|  |".toList, "|##|".toList, "+--+".toList] ∧
    (∃ content,
      print_street [Element.building ⟨2, 1, ['#']⟩]
          (max_height [Element.building ⟨2, 1, ['#']⟩] 0) = some content ∧
      ["+--+".toList, "|  |".toList, "|##|".toList, "+--+".toList] =
        ('+' :: List.replicate
            (([Element.building ⟨2, 1, ['#']⟩].map Element.width).sum) '-' ++
          ['+']) ::
        ('|' :: List.replicate
            (([Element.building ⟨2, 1, ['#']⟩].map Element.width).sum) ' ' ++
          ['|']) ::
        (content ++
          [('+' :: List.replicate
              (([Element.building ⟨2, 1, ['#']⟩].map Element.width).sum) '-' ++
            ['+'])]) ∧
      content.length = max_height [Element.building ⟨2, 1, ['#']⟩] 0 ∧
      ∀ i, i < max_height [Element.building ⟨2, 1, ['#']⟩] 0 →
        ∃ inner, street_line [Element.building ⟨2, 1, ['#']⟩]
            (max_height [Element.building ⟨2, 1, ['#']⟩] 0 - i) = some inner ∧
          content.get? i = some ('|' :: inner ++ ['|'])) :=
  ⟨by decide, by decide,
    C3_printer_structure [('b' :: '_' :: "2,1,#".toList)]
      [.building ⟨2, 1, ['#']⟩]
      ["+--+".toList, "|  |".toList, "|##|".toList, "+--+".toList]
      (by decide) (by decide)⟩

/-- C4: every validly constructed element yields, at every row index
`r ≥ 1`, a row of exactly `width` characters, all spaces whenever `r`
exceeds the element's own height. -/
theorem C4_row_invariant (el : Element) (hv : el.valid) (r : Nat)
    (hr : 1 ≤ r) :
    ∃ row, el.at_height r = some row ∧ row.length = el.width ∧
      (el.height < r → row = List.replicate el.width ' ') := by
  cases el with
  | building b =>
    obtain ⟨hw, hb⟩ := hv
    obtain ⟨c, hc⟩ := List.length_eq_one.mp hb
    simp only [Element.at_height, Element.width, Element.height]
    refine ⟨b.at_height r, rfl, ?_, ?_⟩
    · rw [building_at_height_eq b c hc]
      split <;> simp
    · intro hlt
      rw [building_at_height_eq b c hc, if_pos hlt]
  | park p =>
    obtain ⟨hw, hodd, hf⟩ := hv
    obtain ⟨c, hc⟩ := List.length_eq_one.mp hf
    obtain ⟨h5, h4, h3, h2, h1⟩ := park_at_height_bands p c hc
    simp only [Element.at_height, Element.width, Element.height]
    by_cases hab : 5 < r
    · exact ⟨List.replicate p.width ' ',
        by rw [park_at_height_above p r hab],
        by simp, fun _ => rfl⟩
    · have hr5 : r ≤ 5 := by omega
      refine ⟨p.at_height r, rfl, ?_, fun hlt => absurd hlt (by
        simp only [Park.height]; omega)⟩
      interval_cases r <;>
        simp only [h1, h2, h3, h4, h5, List.length_append,
          List.length_replicate] <;> omega
  | emptyLot e =>
    obtain ⟨hw, ht⟩ := hv
    simp only [Element.at_height, Element.width, Element.height]
    by_cases hab : 1 < r
    · exact ⟨List.replicate e.width ' ',
        by rw [emptylot_at_height_above e r hab],
        by simp, fun _ => rfl⟩
    · have hreq : r = 1 := by omega
      subst hreq
      obtain ⟨row, hrow, hlen, _, _⟩ :=
        trash_to_width_spec e (change_spaces e.trash)
          (change_spaces_ne_nil e.trash ht)
      refine ⟨row, ?_, hlen, fun hlt => absurd hlt (by
        simp only [EmptyLot.height]; omega)⟩
      rw [emptylot_at_height_one, hrow]

/-- C4 witness: the invariant applied to Building(2, 1, '#') at row 2,
above the building's height. -/
theorem C4_row_invariant_witness :
    Element.valid (.building ⟨2, 1, ['#']⟩) ∧ 1 ≤ 2 ∧
    (∃ row, Element.at_height (.building ⟨2, 1, ['#']⟩) 2 = some row ∧
      row.length = Element.width (.building ⟨2, 1, ['#']⟩) ∧
      (Element.height (.building ⟨2, 1, ['#']⟩) < 2 →
        row = List.replicate (Element.width (.building ⟨2, 1, ['#']⟩)) ' ')) :=
  ⟨⟨by decide, by decide⟩, by decide,
    C4_row_invariant (.building ⟨2, 1, ['#']⟩) ⟨by decide, by decide⟩ 2
      (by decide)⟩

/-- C5: a building's row is `width` bricks up to its height and `width`
spaces above it. -/
theorem C5_building_rows (b : Building) (c : Char) (hw : 1 ≤ b.width)
    (hb : b.brick = [c]) (r : Nat) (hr : 1 ≤ r) :
    (r ≤ b.height → b.at_height r = List.replicate b.width c) ∧
    (b.height < r → b.at_height r = List.replicate b.width ' ') := by
  constructor
  · intro h
    rw [building_at_height_eq b c hb, if_neg (by omega)]
  · intro h
    rw [building_at_height_eq b c hb, if_pos h]

/-- C5 witness: Building(2, 1, '#') at row 1 (bricks) and the same bounds
at row 1. -/
theorem C5_building_rows_witness :
    1 ≤ Building.width ⟨2, 1, ['#']⟩ ∧
    Building.brick ⟨2, 1, ['#']⟩ = ['#'] ∧ (1 : Nat) ≤ 1 ∧
    ((1 ≤ Building.height ⟨2, 1, ['#']⟩ →
      Building.at_height ⟨2, 1, ['#']⟩ 1 =
        List.replicate (Building.width ⟨2, 1, ['#']⟩) '#') ∧
     (Building.height ⟨2, 1, ['#']⟩ < 1 →
      Building.at_height ⟨2, 1, ['#']⟩ 1 =
        List.replicate (Building.width ⟨2, 1, ['#']⟩) ' ')) :=
  ⟨by decide, rfl, by decide,
    C5_building_rows ⟨2, 1, ['#']⟩ '#' (by decide) rfl 1 (by decide)⟩

/-- C6: a park's height is always 5; read top to bottom (`at_height 5`
down to `at_height 1`) the bands have widths 1, 3, 5, 1, 1, the bottom two
being the `|` trunk and the rest foliage, each centered with identical
left and right padding; and every one of the five rows has exactly
`width` characters. -/
theorem C6_park_bands (p : Park) (c : Char) (hw : 5 ≤ p.width)
    (hodd : p.width % 2 = 1) (hf : p.fol = [c]) :
    p.height = 5 ∧
    p.at_height 5 = List.replicate ((p.width - 1) / 2) ' ' ++
      List.replicate 1 c ++ List.replicate ((p.width - 1) / 2) ' ' ∧
    p.at_height 4 = List.replicate ((p.width - 3) / 2) ' ' ++
      List.replicate 3 c ++ List.replicate ((p.width - 3) / 2) ' ' ∧
    p.at_height 3 = List.replicate ((p.width - 5) / 2) ' ' ++
      List.replicate 5 c ++ List.replicate ((p.width - 5) / 2) ' ' ∧
    p.at_height 2 = List.replicate ((p.width - 1) / 2) ' ' ++
      List.replicate 1 '|' ++ List.replicate ((p.width - 1) / 2) ' ' ∧
    p.at_height 1 = List.replicate ((p.width - 1) / 2) ' ' ++
      List.replicate 1 '|' ++ List.replicate ((p.width - 1) / 2) ' ' ∧
    (∀ r, 1 ≤ r → r ≤ 5 → (p.at_height r).length = p.width) := by
  obtain ⟨h5, h4, h3, h2, h1⟩ := park_at_height_bands p c hf
  refine ⟨rfl, h5, h4, h3, h2, h1, ?_⟩
  intro r hr1 hr5
  interval_cases r <;>
    simp only [h1, h2, h3, h4, h5, List.length_append,
      List.length_replicate] <;> omega

/-- C6 witness: the band decomposition of Park(5, '*'). -/
theorem C6_park_bands_witness :
    5 ≤ Park.width ⟨5, ['*']⟩ ∧ Park.width ⟨5, ['*']⟩ % 2 = 1 ∧
    Park.fol ⟨5, ['*']⟩ = ['*'] ∧
    (Park.height ⟨5, ['*']⟩ = 5 ∧
     Park.at_height ⟨5, ['*']⟩ 5 =
       List.replicate ((Park.width ⟨5, ['*']⟩ - 1) / 2) ' ' ++
       List.replicate 1 '*' ++
       List.replicate ((Park.width ⟨5, ['*']⟩ - 1) / 2) ' ' ∧
     Park.at_height ⟨5, ['*']⟩ 4 =
       List.replicate ((Park.width ⟨5, ['*']⟩ - 3) / 2) ' ' ++
       List.replicate 3 '*' ++
       List.replicate ((Park.width ⟨5, ['*']⟩ - 3) / 2) ' ' ∧
     Park.at_height ⟨5, ['*']⟩ 3 =
       List.replicate ((Park.width ⟨5, ['*']⟩ - 5) / 2) ' ' ++
       List.replicate 5 '*' ++
       List.replicate ((Park.width ⟨5, ['*']⟩ - 5) / 2) ' ' ∧
     Park.at_height ⟨5, ['*']⟩ 2 =
       List.replicate ((Park.width ⟨5, ['*']⟩ - 1) / 2) ' ' ++
       List.replicate 1 '|' ++
       List.replicate ((Park.width ⟨5, ['*']⟩ - 1) / 2) ' ' ∧
     Park.at_height ⟨5, ['*']⟩ 1 =
       List.replicate ((Park.width ⟨5, ['*']⟩ - 1) / 2) ' ' ++
       List.replicate 1 '|' ++
       List.replicate ((Park.width ⟨5, ['*']⟩ - 1) / 2) ' ' ∧
     (∀ r, 1 ≤ r → r ≤ 5 →
       (Park.at_height ⟨5, ['*']⟩ r).length = Park.width ⟨5, ['*']⟩)) :=
  ⟨by decide, by decide, rfl,
    C6_park_bands ⟨5, ['*']⟩ '*' (by decide) (by decide) rfl⟩

/-- C7: for a valid empty lot the normalized pattern has no underscores,
and `at_height 1` succeeds with exactly `width` characters: the leading
slice of the normalized pattern when it is long enough, otherwise full
repeats plus the leading slice of one more repeat. -/
theorem C7_emptylot_normalize (e : EmptyLot) (hw : 1 ≤ e.width)
    (ht : e.trash ≠ []) :
    '_' ∉ change_spaces e.trash ∧
    ∃ row, e.at_height 1 = some row ∧ row.length = e.width ∧
      (e.width ≤ (change_spaces e.trash).length →
        row = (change_spaces e.trash).take e.width) ∧
      ((change_spaces e.trash).length < e.width →
        row = repeat_list (change_spaces e.trash)
            (e.width / (change_spaces e.trash).length) ++
          (change_spaces e.trash).take
            (e.width % (change_spaces e.trash).length)) := by
  obtain ⟨row, hrow, hlen, hge, hlt⟩ :=
    trash_to_width_spec e (change_spaces e.trash)
      (change_spaces_ne_nil e.trash ht)
  exact ⟨change_spaces_no_underscore e.trash, row,
    by rw [emptylot_at_height_one, hrow], hlen, hge, hlt⟩

/-- C7 witness: EmptyLot(5, "a_") tiles its normalized pattern "a " to
five characters. -/
theorem C7_emptylot_normalize_witness :
    1 ≤ EmptyLot.width ⟨5, ['a', '_']⟩ ∧
    EmptyLot.trash ⟨5, ['a', '_']⟩ ≠ [] ∧
    ('_' ∉ change_spaces (EmptyLot.trash ⟨5, ['a', '_']⟩) ∧
     ∃ row, EmptyLot.at_height ⟨5, ['a', '_']⟩ 1 = some row ∧
       row.length = EmptyLot.width ⟨5, ['a', '_']⟩ ∧
       (EmptyLot.width ⟨5, ['a', '_']⟩ ≤
          (change_spaces (EmptyLot.trash ⟨5, ['a', '_']⟩)).length →
         row = (change_spaces (EmptyLot.trash ⟨5, ['a', '_']⟩)).take
           (EmptyLot.width ⟨5, ['a', '_']⟩)) ∧
       ((change_spaces (EmptyLot.trash ⟨5, ['a', '_']⟩)).length <
          EmptyLot.width ⟨5, ['a', '_']⟩ →
         row = repeat_list (change_spaces (EmptyLot.trash ⟨5, ['a', '_']⟩))
             (EmptyLot.width ⟨5, ['a', '_']⟩ /
               (change_spaces (EmptyLot.trash ⟨5, ['a', '_']⟩)).length) ++
           (change_spaces (EmptyLot.trash ⟨5, ['a', '_']⟩)).take
             (EmptyLot.width ⟨5, ['a', '_']⟩ %
               (change_spaces (EmptyLot.trash ⟨5, ['a', '_']⟩)).length))) :=
  ⟨by decide, by decide,
    C7_emptylot_normalize ⟨5, ['a', '_']⟩ (by decide) (by decide)⟩

/-- The element a single token contributes to the street, if any. -/
def token_element (tok : List Char) : Option Element :=
  match parse_token tok with
  | .elem e => some e
  | _ => none

/-- A token whose first character the parser recognizes. -/
def recognized (tok : List Char) : Prop :=
  tok.head? = some 'b' ∨ tok.head? = some 'p' ∨ tok.head? = some 'e'

instance recognized_decidable (tok : List Char) : Decidable (recognized tok) := by
  unfold recognized
  infer_instance

lemma create_street_append (parts : List (List Char)) (acc : List Element)
    (h : ∀ tok ∈ parts, parse_token tok ≠ .crash) :
    create_street parts acc = some (acc ++ parts.filterMap token_element) := by
  induction parts generalizing acc with
  | nil => simp [create_street]
  | cons tok rest ih =>
    have htok : parse_token tok ≠ .crash := h tok (by simp)
    have hrest : ∀ t ∈ rest, parse_token t ≠ .crash := fun t htm =>
      h t (by simp [htm])
    cases hp : parse_token tok with
    | crash => exact absurd hp htok
    | skip =>
      simp only [create_street, hp]
      rw [ih acc hrest]
      simp [List.filterMap_cons, token_element, hp]
    | elem e =>
      simp only [create_street, hp]
      rw [ih (acc ++ [e]) hrest]
      simp [List.filterMap_cons, token_element, hp]

lemma parse_token_recognized (c : Char) (rest : List Char)
    (hc : c = 'b' ∨ c = 'p' ∨ c = 'e') :
    parse_token (c :: rest) = .crash ∨
      ∃ e, parse_token (c :: rest) = .elem e := by
  rcases hc with hc | hc | hc <;> subst hc <;> simp only [parse_token]
  · cases parse_building (split_commas ((('b' : Char) :: rest).drop 2)) with
    | none => exact Or.inl (by simp [opt_result])
    | some e => exact Or.inr ⟨e, by simp [opt_result]⟩
  · rw [if_neg (by decide)]
    cases parse_park (split_commas ((('p' : Char) :: rest).drop 2)) with
    | none => exact Or.inl (by simp [opt_result])
    | some e => exact Or.inr ⟨e, by simp [opt_result]⟩
  · rw [if_neg (by decide), if_neg (by decide)]
    cases parse_lot (split_commas ((('e' : Char) :: rest).drop 2)) with
    | none => exact Or.inl (by simp [opt_result])
    | some e => exact Or.inr ⟨e, by simp [opt_result]⟩

/-- C8: when every token parses without an uncaught error, `create_street`
returns exactly the elements of the recognized tokens (first character
`b`, `p`, or `e`), one each and in input order (`filterMap` keeps order);
every recognized token contributes an element and every other token
contributes none. -/
theorem C8_parser_order (parts : List (List Char))
    (h : ∀ tok ∈ parts, parse_token tok ≠ .crash) :
    create_street parts [] = some (parts.filterMap token_element) ∧
    ∀ tok ∈ parts,
      (recognized tok → (token_element tok).isSome = true) ∧
      (¬ recognized tok → token_element tok = none) := by
  refine ⟨by simpa using create_street_append parts [] h,
    fun tok htok => ⟨?_, ?_⟩⟩
  · intro hrec
    cases tok with
    | nil => simp [recognized] at hrec
    | cons c rest =>
      have hc : c = 'b' ∨ c = 'p' ∨ c = 'e' := by
        simpa [recognized] using hrec
      rcases parse_token_recognized c rest hc with hcr | ⟨e, he⟩
      · exact absurd hcr (h _ htok)
      · simp [token_element, he]
  · intro hnrec
    cases tok with
    | nil => exact absurd rfl (h _ htok)
    | cons c rest =>
      have hc : ¬(c = 'b' ∨ c = 'p' ∨ c = 'e') := by
        simpa [recognized] using hnrec
      push_neg at hc
      simp [token_element, parse_token, hc.1, hc.2.1, hc.2.2]

/-- C8 witness: the tokens `b_2,1,#`, `zq`, `e_3,x` — the middle one is
skipped, the other two parse in order. -/
theorem C8_parser_order_witness :
    (∀ tok ∈ [('b' :: '_' :: "2,1,#".toList), ['z', 'q'],
        ('e' :: '_' :: "3,x".toList)], parse_token tok ≠ .crash) ∧
    (create_street [('b' :: '_' :: "2,1,#".toList), ['z', 'q'],
        ('e' :: '_' :: "3,x".toList)] [] =
      some ([('b' :: '_' :: "2,1,#".toList), ['z', 'q'],
        ('e' :: '_' :: "3,x".toList)].filterMap token_element) ∧
     ∀ tok ∈ [('b' :: '_' :: "2,1,#".toList), ['z', 'q'],
        ('e' :: '_' :: "3,x".toList)],
       (recognized tok → (token_element tok).isSome = true) ∧
       (¬ recognized tok → token_element tok = none)) :=
  ⟨by decide, C8_parser_order
    [('b' :: '_' :: "2,1,#".toList), ['z', 'q'],
      ('e' :: '_' :: "3,x".toList)] (by decide)⟩

/-- C9: an empty lot with an empty trash pattern and positive width hits
the division by the pattern's zero length inside `trash_to_width`, so
`at_height 1` fails (`none`, the model of Python's uncaught
`ZeroDivisionError`) instead of returning a row; the token `e_3,` builds
exactly such a lot. -/
theorem C9_empty_trash_crash (e : EmptyLot) (ht : e.trash = [])
    (hw : 1 ≤ e.width) :
    e.at_height 1 = none ∧
    create_street [('e' :: '_' :: '3' :: [','])] [] =
      some [.emptyLot ⟨3, []⟩] := by
  refine ⟨?_, by decide⟩
  rw [emptylot_at_height_one, ht]
  unfold EmptyLot.trash_to_width
  rw [if_neg (by simp [change_spaces]; omega), if_pos (by simp [change_spaces])]

/-- C9 witness: the lot EmptyLot(3, "") itself. -/
theorem C9_empty_trash_crash_witness :
    EmptyLot.trash ⟨3, []⟩ = [] ∧ 1 ≤ EmptyLot.width ⟨3, []⟩ ∧
    (EmptyLot.at_height ⟨3, []⟩ 1 = none ∧
     create_street [('e' :: '_' :: '3' :: [','])] [] =
       some [.emptyLot ⟨3, []⟩]) :=
  ⟨rfl, by decide, C9_empty_trash_crash ⟨3, []⟩ rfl (by decide)⟩

lemma create_street_cons (tok : List Char) (rest : List (List Char))
    (acc : List Element) :
    create_street (tok :: rest) acc =
      match parse_token tok with
      | .crash => none
      | .skip => create_street rest acc
      | .elem e => create_street rest (acc ++ [e]) := rfl

/-- C10: the parser never inspects a token's second character: for a
recognized type character `t`, the tokens `t ++ c1 ++ s` and
`t ++ c2 ++ s` produce the same parse result and the same street, because
the branch looks only at index 0 and the parameters start at index 2. -/
theorem C10_second_char_ignored (t c1 c2 : Char)
    (ht : t = 'b' ∨ t = 'p' ∨ t = 'e') (s : List Char)
    (rest : List (List Char)) (acc : List Element) :
    parse_token (t :: c1 :: s) = parse_token (t :: c2 :: s) ∧
    create_street ((t :: c1 :: s) :: rest) acc =
      create_street ((t :: c2 :: s) :: rest) acc := by
  have hp : parse_token (t :: c1 :: s) = parse_token (t :: c2 :: s) := rfl
  exact ⟨hp, by rw [create_street_cons, create_street_cons, hp]⟩

/-- C10 witness: `b_4,3,#` and `bX4,3,#` parse to the same building. -/
theorem C10_second_char_ignored_witness :
    (('b' : Char) = 'b' ∨ ('b' : Char) = 'p' ∨ ('b' : Char) = 'e') ∧
    (parse_token ('b' :: '_' :: "4,3,#".toList) =
       parse_token ('b' :: 'X' :: "4,3,#".toList) ∧
     create_street [('b' :: '_' :: "4,3,#".toList)] [] =
       create_street [('b' :: 'X' :: "4,3,#".toList)] []) :=
  ⟨Or.inl rfl,
    C10_second_char_ignored 'b' '_' 'X' (Or.inl rfl) "4,3,#".toList [] []⟩

end StreetArt
